import Mathlib

/-!
Shallow embedding of `jwt.go` (package jwt): the token data model, the
segment codec, the signing-string builder, the parser/validator and the
validation-error aggregator, together with the Go standard-library
behaviour those functions rely on (base64.URLEncoding, json.Marshal and
json.Unmarshal restricted to the value shapes the library touches).

Embedding conventions:
* Go byte slices are `List Nat` (each entry < 256); Go strings are Lean
  `String`s and all inputs considered here are ASCII, so byte length and
  character length coincide.
* JSON numbers are modelled as integers (`Int`).  Go decodes every JSON
  number to a float64; the only numeric claims the library inspects are
  the integral Unix timestamps `exp` and `nbf`, for which the Go
  conversion `int64(x)` is the identity.  JSON fraction/exponent forms
  are rejected by the model parser rather than approximated.
* Fallible Go functions returning `(T, error)` become `Except String T`;
  the Go error message is kept where the library inspects it, and
  shortened to a fixed text where it does not (base64 and JSON parse
  errors carry byte offsets in Go that no caller of this library reads).
-/

set_option maxRecDepth 8000

namespace Jwt

/-- JSON values as stored in the Go maps `map[string]interface\x7b\x7d`
after `json.Unmarshal`.  Objects are association lists of string keys. -/
inductive Jval where
  | null : Jval
  | bool (b : Bool) : Jval
  | num (n : Int) : Jval
  | str (s : String) : Jval
  | arr (elems : List Jval) : Jval
  | obj (fields : List (String × Jval)) : Jval

/-- Go map indexing `m[k]` for the association-list model of
`map[string]interface\x7b\x7d`: the lists built by the model parser hold
each key at most once, so the first hit is the map entry. -/
def lookupJ (k : String) (m : List (String × Jval)) : Option Jval :=
  (m.find? (fun p => p.1 == k)).map (fun p => p.2)

/-- Go `[]byte(s)` for ASCII strings. -/
def strToBytes (s : String) : List Nat := s.toList.map Char.toNat

/-- Go `string(bs)` for ASCII byte slices. -/
def bytesToStr (bs : List Nat) : String := ⟨bs.map Char.ofNat⟩

def lbrace : Char := Char.ofNat 123

def rbrace : Char := Char.ofNat 125

/-! ### base64.URLEncoding (Go standard library) -/

def b64urlChars : List Char :=
  "ABCDEFGHIJKLMNOPQRSTUVWXYZabcdefghijklmnopqrstuvwxyz0123456789-_".toList

def b64Char (n : Nat) : Char := b64urlChars.getD n 'A'

def b64Val (c : Char) : Option Nat := b64urlChars.findIdx? (fun d => d == c)

/-- base64 encoding of a byte list, three bytes to four characters, the
final quantum padded with `=` as in Go's `base64.URLEncoding.EncodeToString`. -/
def b64encodeList : List Nat → List Char
  | [] => []
  | [b0] => [b64Char (b0 / 4), b64Char (b0 % 4 * 16), '=', '=']
  | [b0, b1] => [b64Char (b0 / 4), b64Char (b0 % 4 * 16 + b1 / 16), b64Char (b1 % 16 * 4), '=']
  | b0 :: b1 :: b2 :: rest =>
    b64Char (b0 / 4) :: b64Char (b0 % 4 * 16 + b1 / 16) ::
      b64Char (b1 % 16 * 4 + b2 / 64) :: b64Char (b2 % 64) :: b64encodeList rest

def b64Byte0 (v0 v1 : Nat) : Nat := v0 * 4 + v1 / 16

def b64Byte1 (v1 v2 : Nat) : Nat := v1 % 16 * 16 + v2 / 4

def b64Byte2 (v2 v3 : Nat) : Nat := v2 % 4 * 64 + v3

/-- Core of Go's padded base64 decoding, after carriage returns and
newlines have been removed: the input is consumed in quantums of four
characters; `=` padding may only appear as the tail of the final quantum
(`xx==` or `xxx=`); any other shape, any character outside the alphabet,
and any leftover of one to three characters is a decode error.  Go's
default (non-strict) mode does not check the unused trailing bits. -/
def b64decodeClean : List Char → Option (List Nat)
  | [] => some []
  | c0 :: c1 :: c2 :: c3 :: rest =>
    match b64Val c0, b64Val c1 with
    | some v0, some v1 =>
      if c2 = '=' then
        if c3 = '=' ∧ rest = [] then some [b64Byte0 v0 v1] else none
      else
        match b64Val c2 with
        | some v2 =>
          if c3 = '=' then
            if rest = [] then some [b64Byte0 v0 v1, b64Byte1 v1 v2] else none
          else
            match b64Val c3 with
            | some v3 =>
              (b64decodeClean rest).map
                (fun bs => b64Byte0 v0 v1 :: b64Byte1 v1 v2 :: b64Byte2 v2 v3 :: bs)
            | none => none
        | none => none
    | _, _ => none
  | _ => none

/-- Go's `base64.URLEncoding.DecodeString`.  The Go decoder skips `\r` and
`\n` wherever they occur in the input; removing them up front is
behaviourally equivalent (the error offsets Go reports are not modelled). -/
def goBase64URLDecode (s : String) : Option (List Nat) :=
  b64decodeClean (s.toList.filter (fun c => !(c == '\n' || c == '\r')))

/-! ### Segment codec (jwt.go, EncodeSegment / DecodeSegment) -/

/-- `EncodeSegment`: base64url-encode, then `strings.TrimRight(_, "=")`. -/
def EncodeSegment (seg : List Nat) : String :=
  ⟨((b64encodeList seg).reverse.dropWhile (fun c => c == '=')).reverse⟩

/-- `DecodeSegment`: the source switches on `len(seg) % 4` and appends
`"=="` in case 2 and `"==="` in case 3 (sic — three characters), then
calls `base64.URLEncoding.DecodeString`. -/
def DecodeSegment (seg : String) : Except String (List Nat) :=
  let seg2 :=
    if seg.length % 4 = 2 then seg ++ "=="
    else if seg.length % 4 = 3 then seg ++ "==="
    else seg
  match goBase64URLDecode seg2 with
  | some bs => Except.ok bs
  | none => Except.error "illegal base64 data"

/-! ### json.Marshal (Go standard library, for the value shapes used here) -/

def hexDigitChar (n : Nat) : Char := "0123456789abcdef".toList.getD n '0'

/-- Go JSON string escaping: quote, backslash, the control characters,
and (because `json.Marshal` HTML-escapes by default) `<`, `>` and `&`. -/
def jsonEscapeChar (c : Char) : String :=
  if c = '"' then "\\\""
  else if c = '\\' then "\\\\"
  else if c = '\n' then "\\n"
  else if c = '\r' then "\\r"
  else if c = '\t' then "\\t"
  else if c = '<' then "\\u003c"
  else if c = '>' then "\\u003e"
  else if c = '&' then "\\u0026"
  else if c.toNat < 32 then
    "\\u00" ++ ⟨[hexDigitChar (c.toNat / 16), hexDigitChar (c.toNat % 16)]⟩
  else ⟨[c]⟩

def jsonQuote (s : String) : String :=
  "\"" ++ String.join (s.toList.map jsonEscapeChar) ++ "\""

/-- Byte-wise string order, as used by Go's `sort.Strings` on map keys. -/
def charListLe : List Char → List Char → Bool
  | [], _ => true
  | _ :: _, [] => false
  | a :: as, b :: bs =>
    if a.toNat < b.toNat then true
    else if b.toNat < a.toNat then false
    else charListLe as bs

def strLeB (a b : String) : Bool := charListLe a.toList b.toList

def insertSorted (p : String × Jval) : List (String × Jval) → List (String × Jval)
  | [] => [p]
  | q :: rest => if strLeB p.1 q.1 then p :: q :: rest else q :: insertSorted p rest

/-- `json.Marshal` emits map entries in sorted key order. -/
def sortByKey (l : List (String × Jval)) : List (String × Jval) :=
  l.foldr insertSorted []

def commaJoin : List String → String
  | [] => ""
  | [a] => a
  | a :: b :: rest => a ++ "," ++ commaJoin (b :: rest)

mutual

/-- Executable size of a JSON value, used as marshalling fuel. -/
def jsize : Jval → Nat
  | Jval.null => 1
  | Jval.bool _ => 1
  | Jval.num _ => 1
  | Jval.str _ => 1
  | Jval.arr xs => 1 + jsizeList xs
  | Jval.obj kvs => 1 + jsizeFields kvs

def jsizeList : List Jval → Nat
  | [] => 0
  | x :: xs => 1 + jsize x + jsizeList xs

def jsizeFields : List (String × Jval) → Nat
  | [] => 0
  | p :: rest => 1 + jsize p.2 + jsizeFields rest

end

/-- Fuelled body of `json.Marshal`; the fuel only serves Lean's
termination checker and `jsize` of the value always suffices. -/
def jsonMarshalF : Nat → Jval → String
  | 0, _ => ""
  | fuel + 1, v =>
    match v with
    | Jval.null => "null"
    | Jval.bool true => "true"
    | Jval.bool false => "false"
    | Jval.num n => toString n
    | Jval.str s => jsonQuote s
    | Jval.arr xs => "[" ++ commaJoin (xs.map (fun x => jsonMarshalF fuel x)) ++ "]"
    | Jval.obj kvs =>
      "\x7b" ++
        commaJoin ((sortByKey kvs).map
          (fun kv => jsonQuote kv.1 ++ ":" ++ jsonMarshalF fuel kv.2)) ++
        "\x7d"

/-- `json.Marshal` for the JSON-serializable values `Jval` covers; on this
domain Go's marshaller cannot fail, so the result is a plain string. -/
def jsonMarshal (v : Jval) : String := jsonMarshalF (jsize v) v

/-! ### json.Unmarshal into map[string]interface\x7b\x7d -/

def isJsonWs (c : Char) : Bool :=
  c == ' ' || c == '\t' || c == '\n' || c == '\r'

def skipWs : List Char → List Char
  | [] => []
  | c :: rest => if isJsonWs c then skipWs rest else c :: rest

/-- The escape sequences Go's JSON decoder accepts inside strings
(`\uXXXX` escapes are not modelled; inputs using them fall outside the
model parser's domain). -/
def escChar (c : Char) : Option Char :=
  if c = '"' then some '"'
  else if c = '\\' then some '\\'
  else if c = '/' then some '/'
  else if c = 'b' then some (Char.ofNat 8)
  else if c = 'f' then some (Char.ofNat 12)
  else if c = 'n' then some '\n'
  else if c = 'r' then some '\r'
  else if c = 't' then some '\t'
  else none

/-- Parse the remainder of a JSON string literal (the opening quote
already consumed); raw control characters are rejected as in Go. -/
def parseStringRest : List Char → Except String (List Char × List Char)
  | [] => Except.error "unexpected end of JSON input"
  | c :: rest =>
    if c = '"' then Except.ok ([], rest)
    else if c = '\\' then
      match rest with
      | [] => Except.error "unexpected end of JSON input"
      | e :: rest2 =>
        match escChar e with
        | some d => (parseStringRest rest2).map (fun p => (d :: p.1, p.2))
        | none => Except.error "invalid escape sequence"
    else if c.toNat < 32 then Except.error "invalid control character in string literal"
    else (parseStringRest rest).map (fun p => (c :: p.1, p.2))

def digitsVal (ds : List Char) : Nat :=
  ds.foldl (fun a c => a * 10 + (c.toNat - 48)) 0

/-- JSON number grammar, restricted to integers: optional minus, digits
with no redundant leading zero; a fraction or exponent marker is outside
the model and rejected. -/
def parseNumber (l : List Char) : Except String (Int × List Char) :=
  let negAndRest : Bool × List Char :=
    match l with
    | '-' :: r => (true, r)
    | _ => (false, l)
  let ds := negAndRest.2.takeWhile (fun c => c.isDigit)
  let rest := negAndRest.2.dropWhile (fun c => c.isDigit)
  if ds = [] then Except.error "invalid number literal"
  else if ds.headD '1' = '0' ∧ ds.length > 1 then Except.error "invalid number literal"
  else
    match rest with
    | c :: _ =>
      if c = '.' ∨ c = 'e' ∨ c = 'E' then
        Except.error "non-integer JSON numbers are outside this model"
      else
        Except.ok (if negAndRest.1 then -(digitsVal ds : Int) else (digitsVal ds : Int), rest)
    | [] =>
      Except.ok (if negAndRest.1 then -(digitsVal ds : Int) else (digitsVal ds : Int), rest)

/-- Go's JSON decoder overwrites earlier duplicate keys with later ones;
keeping the first position but letting the later value win preserves the
map (lookup) semantics. -/
def insertKVLastWins (k : String) (v : Jval) (l : List (String × Jval)) :
    List (String × Jval) :=
  if (l.find? (fun p => p.1 == k)).isSome then l else (k, v) :: l

mutual

/-- One JSON value (leading whitespace allowed), fuelled for termination;
`length + 2` fuel always suffices since every recursion step consumes at
least one input character. -/
def parseJval : Nat → List Char → Except String (Jval × List Char)
  | 0, _ => Except.error "out of fuel"
  | fuel + 1, l =>
    match skipWs l with
    | [] => Except.error "unexpected end of JSON input"
    | c :: rest =>
      if c = 'n' then
        match rest with
        | 'u' :: 'l' :: 'l' :: r => Except.ok (Jval.null, r)
        | _ => Except.error "invalid character in literal"
      else if c = 't' then
        match rest with
        | 'r' :: 'u' :: 'e' :: r => Except.ok (Jval.bool true, r)
        | _ => Except.error "invalid character in literal"
      else if c = 'f' then
        match rest with
        | 'a' :: 'l' :: 's' :: 'e' :: r => Except.ok (Jval.bool false, r)
        | _ => Except.error "invalid character in literal"
      else if c = '"' then
        (parseStringRest rest).map (fun p => (Jval.str ⟨p.1⟩, p.2))
      else if c = '-' ∨ c.isDigit then
        (parseNumber (c :: rest)).map (fun p => (Jval.num p.1, p.2))
      else if c = '[' then
        match skipWs rest with
        | ']' :: r => Except.ok (Jval.arr [], r)
        | _ => (parseElems fuel rest).map (fun p => (Jval.arr p.1, p.2))
      else if c = lbrace then
        match skipWs rest with
        | [] => Except.error "unexpected end of JSON input"
        | c2 :: r2 =>
          if c2 = rbrace then Except.ok (Jval.obj [], r2)
          else (parseMembers fuel rest).map (fun p => (Jval.obj p.1, p.2))
      else Except.error "invalid character looking for beginning of value"

/-- Comma-separated array elements up to the closing bracket. -/
def parseElems : Nat → List Char → Except String (List Jval × List Char)
  | 0, _ => Except.error "out of fuel"
  | fuel + 1, l =>
    match parseJval fuel l with
    | Except.error e => Except.error e
    | Except.ok (v, r) =>
      match skipWs r with
      | ',' :: r2 => (parseElems fuel r2).map (fun p => (v :: p.1, p.2))
      | ']' :: r2 => Except.ok ([v], r2)
      | _ => Except.error "invalid character after array element"

/-- Comma-separated object members up to the closing brace. -/
def parseMembers : Nat → List Char → Except String (List (String × Jval) × List Char)
  | 0, _ => Except.error "out of fuel"
  | fuel + 1, l =>
    match skipWs l with
    | [] => Except.error "unexpected end of JSON input"
    | c :: r =>
      if c = '"' then
        match parseStringRest r with
        | Except.error e => Except.error e
        | Except.ok (k, r2) =>
          match skipWs r2 with
          | ':' :: r3 =>
            match parseJval fuel r3 with
            | Except.error e => Except.error e
            | Except.ok (v, r4) =>
              match skipWs r4 with
              | ',' :: r5 =>
                (parseMembers fuel r5).map
                  (fun p => (insertKVLastWins ⟨k⟩ v p.1, p.2))
              | c2 :: r5 =>
                if c2 = rbrace then Except.ok ([(⟨k⟩, v)], r5)
                else Except.error "invalid character after object member"
              | [] => Except.error "unexpected end of JSON input"
          | _ => Except.error "invalid character after object key"
      else Except.error "invalid character looking for object key"

end

/-- `json.Unmarshal(bytes, &m)` for `m : map[string]interface\x7b\x7d`:
the top-level value must be a JSON object (JSON `null` is a no-op in Go,
leaving the map nil, i.e. empty), with nothing but whitespace after it. -/
def jsonUnmarshalObj (s : String) : Except String (List (String × Jval)) :=
  let l := s.toList
  match parseJval (l.length + 2) l with
  | Except.error e => Except.error e
  | Except.ok (v, rest) =>
    if skipWs rest ≠ [] then Except.error "invalid character after top-level value"
    else
      match v with
      | Jval.obj kvs => Except.ok kvs
      | Jval.null => Except.ok []
      | _ => Except.error "json: cannot unmarshal value into map"

/-! ### The token data model (jwt.go) -/

/-- Modelled from the spec: the Signing Capability interface
(`SigningMethod`, defined outside the provided source file) — an
algorithm name, `sign(signingInput, key) -> signature-or-error` and
`verify(signingInput, signature, key) -> error-or-nil`. -/
structure SigningMethod where
  Alg : String
  Sign : String → List Nat → Except String String
  Verify : String → String → List Nat → Except String Unit

/-- The Go `Token` struct; field defaults are the Go zero values
(`Method` is a nil-able interface, hence `Option`). -/
structure Token where
  Raw : String := ""
  Header : List (String × Jval) := []
  Claims : List (String × Jval) := []
  Method : Option SigningMethod := none
  Signature : String := ""
  Valid : Bool := false

/-- The Go `ValidationError` struct (zero values as defaults). -/
structure ValidationError where
  err : String := ""
  Malformed : Bool := false
  Unverifiable : Bool := false
  SignatureInvalid : Bool := false
  Expired : Bool := false
  NotValidYet : Bool := false
deriving DecidableEq

/-- `(*ValidationError).Error()`. -/
def ValidationError.Error (e : ValidationError) : String :=
  if e.err = "" then "Token is invalid" else e.err

/-- `(*ValidationError).Valid()`. -/
def ValidationError.Valid (e : ValidationError) : Bool :=
  if e.Malformed || e.Unverifiable || e.SignatureInvalid || e.Expired || e.NotValidYet then
    false
  else
    true

/-- `New(method)`. -/
def New (method : SigningMethod) : Token :=
  { Header := [("typ", Jval.str "JWT"), ("alg", Jval.str method.Alg)],
    Claims := [],
    Method := some method }

/-- `(*Token).SigningString()`: marshal the header and the claims,
segment-encode each, join with `.`.  On the `Jval` domain `json.Marshal`
cannot fail, so the source's serialization-error branch is unreachable
and the result is always `ok`. -/
def SigningString (t : Token) : Except String String :=
  Except.ok
    (EncodeSegment (strToBytes (jsonMarshal (Jval.obj t.Header))) ++ "." ++
      EncodeSegment (strToBytes (jsonMarshal (Jval.obj t.Claims))))

/-- `(*Token).SignedString(key)`.  A nil `Method` would make the Go code
panic on the interface call; the model returns an error in that
(unreachable for tokens built by `New`) case. -/
def SignedString (t : Token) (key : List Nat) : Except String String :=
  match SigningString t with
  | Except.error e => Except.error e
  | Except.ok sstr =>
    match t.Method with
    | none => Except.error "nil signing method"
    | some m =>
      match m.Sign sstr key with
      | Except.error e => Except.error e
      | Except.ok sig => Except.ok (sstr ++ "." ++ sig)

/-- `strings.Split(s, sep)` for a single-character separator. -/
def splitCh (sep : Char) : List Char → List (List Char)
  | [] => [[]]
  | c :: rest =>
    if c = sep then [] :: splitCh sep rest
    else
      match splitCh sep rest with
      | h :: t => (c :: h) :: t
      | [] => [[c]]

/-- `strings.Split(tokenString, ".")` as used by `Parse`. -/
def splitOnDot (s : String) : List String := (splitCh '.' s.toList).map (fun l => ⟨l⟩)

/-- `Parse(tokenString, keyFunc)`.  The process-wide registry behind
`GetSigningMethod` (defined outside the provided source file) enters as
the explicit mapping `getSigningMethod`, and `TimeFunc().Unix()` as the
explicit `now`; both are injected exactly where the source reads them.
The returned pair models Go's `(*Token, error)`, with `none` for nil. -/
def Parse (getSigningMethod : String → Option SigningMethod) (now : Int)
    (tokenString : String) (keyFunc : Token → Except String (List Nat)) :
    Option Token × Option ValidationError :=
  match splitOnDot tokenString with
  | [p0, p1, p2] =>
    match DecodeSegment p0 with
    | Except.error e => (some { Raw := tokenString }, some { err := e, Malformed := true })
    | Except.ok headerBytes =>
      match jsonUnmarshalObj (bytesToStr headerBytes) with
      | Except.error e => (some { Raw := tokenString }, some { err := e, Malformed := true })
      | Except.ok header =>
        match DecodeSegment p1 with
        | Except.error e =>
          (some { Raw := tokenString, Header := header },
           some { err := e, Malformed := true })
        | Except.ok claimBytes =>
          match jsonUnmarshalObj (bytesToStr claimBytes) with
          | Except.error e =>
            (some { Raw := tokenString, Header := header },
             some { err := e, Malformed := true })
          | Except.ok claims =>
            match lookupJ "alg" header with
            | some (Jval.str alg) =>
              match getSigningMethod alg with
              | none =>
                (some { Raw := tokenString, Header := header, Claims := claims },
                 some { err := "Signing method (alg) is unavailable.", Unverifiable := true })
              | some m =>
                match keyFunc { Raw := tokenString, Header := header, Claims := claims,
                                Method := some m } with
                | Except.error e =>
                  (some { Raw := tokenString, Header := header, Claims := claims,
                          Method := some m },
                   some { err := e, Unverifiable := true })
                | Except.ok key =>
                  let vErr1 : ValidationError :=
                    match lookupJ "exp" claims with
                    | some (Jval.num expv) =>
                      if now > expv then { err := "Token is expired", Expired := true } else {}
                    | _ => {}
                  let vErr2 : ValidationError :=
                    match lookupJ "nbf" claims with
                    | some (Jval.num nbfv) =>
                      if now < nbfv then
                        { vErr1 with err := "Token is not valid yet", NotValidYet := true }
                      else vErr1
                    | _ => vErr1
                  let vErr3 : ValidationError :=
                    match m.Verify (p0 ++ "." ++ p1) p2 key with
                    | Except.error e => { vErr2 with err := e, SignatureInvalid := true }
                    | Except.ok _ => vErr2
                  if vErr3.Valid then
                    (some { Raw := tokenString, Header := header, Claims := claims,
                            Method := some m, Valid := true },
                     none)
                  else
                    (some { Raw := tokenString, Header := header, Claims := claims,
                            Method := some m },
                     some vErr3)
            | _ =>
              (some { Raw := tokenString, Header := header, Claims := claims },
               some { err := "Signing method (alg) is unspecified.", Unverifiable := true })
  | _ => (none, some { err := "Token contains an invalid number of segments", Malformed := true })

/-! ### Concrete fixtures for witnesses and counterexamples -/

/-- A signing method whose verification always succeeds. -/
def mOK : SigningMethod :=
  { Alg := "HS256", Sign := fun _ _ => Except.ok "sig",
    Verify := fun _ _ _ => Except.ok () }

/-- A signing method whose verification always fails. -/
def mBad : SigningMethod :=
  { Alg := "HS256", Sign := fun _ _ => Except.ok "sig",
    Verify := fun _ _ _ => Except.error "signature is invalid" }

/-- A registry resolving only `"HS256"`, to `mOK`. -/
def regHS : String → Option SigningMethod := fun a => if a = "HS256" then some mOK else none

/-- A registry resolving only `"HS256"`, to `mBad`. -/
def regBad : String → Option SigningMethod := fun a => if a = "HS256" then some mBad else none

/-- A key-resolution callback returning the empty key. -/
def kfEmpty : Token → Except String (List Nat) := fun _ => Except.ok []

/-- Header/claims/signature token whose claims are `\x7b"a":1\x7d`. -/
def c3Token : String :=
  EncodeSegment (strToBytes "\x7b\"alg\":\"HS256\",\"typ\":\"JWT\"\x7d") ++ "." ++
    EncodeSegment (strToBytes "\x7b\"a\":1\x7d") ++ ".c2ln"

/-- Token whose claims are `\x7b"exp":1\x7d` (expired for `now > 1`). -/
def cExpToken : String :=
  EncodeSegment (strToBytes "\x7b\"alg\":\"HS256\",\"typ\":\"JWT\"\x7d") ++ "." ++
    EncodeSegment (strToBytes "\x7b\"exp\":1\x7d") ++ ".c2ln"

/-- Token whose header `\x7b"a":1\x7d` carries no `alg` entry. -/
def cNoAlgToken : String :=
  EncodeSegment (strToBytes "\x7b\"a\":1\x7d") ++ "." ++
    EncodeSegment (strToBytes "\x7b\"a\":1\x7d") ++ ".c2ln"

/-- Does an optional header value hold a string (the shape of a usable
`alg` entry)? -/
def algIsStr : Option Jval → Bool
  | some (Jval.str _) => true
  | _ => false

/-! ### Claim theorems -/

/-- C7: a `ValidationError` is `Valid()` exactly when none of the five
flags `Malformed`, `Unverifiable`, `SignatureInvalid`, `Expired`,
`NotValidYet` is set. -/
theorem C7_valid_iff_no_flag (e : ValidationError) :
    e.Valid = true ↔
      e.Malformed = false ∧ e.Unverifiable = false ∧ e.SignatureInvalid = false ∧
        e.Expired = false ∧ e.NotValidYet = false := by
  cases e with
  | mk err m u si ex nv =>
    cases m <;> cases u <;> cases si <;> cases ex <;> cases nv <;>
      simp [ValidationError.Valid]

/-- C8: a token built by `New` has empty `Raw` and `Signature`, `Valid`
false, exactly the header entries `typ = "JWT"` and `alg = method name`,
and no claims. -/
theorem C8_new_token_shape (m : SigningMethod) :
    New m =
      { Raw := "", Header := [("typ", Jval.str "JWT"), ("alg", Jval.str m.Alg)],
        Claims := [], Method := some m, Signature := "", Valid := false } := rfl

/-- C2 (counter-evidence): the source pads a length-3-mod-4 segment with
three `=` rather than one, so the validly encoded unpadded segment
`"YWI"` (one `=` of padding away from decoding to the bytes of `"ab"`)
is rejected by `DecodeSegment`. -/
theorem C2_overpadding_rejects_valid_segment :
    "YWI".length % 4 = 3 ∧
      goBase64URLDecode ("YWI" ++ "=") = some [97, 98] ∧
      DecodeSegment "YWI" = Except.error "illegal base64 data" :=
  ⟨rfl, rfl, rfl⟩

/-- C9 (counterexample): `"\n"` has length ≡ 1 (mod 4), yet
`DecodeSegment` succeeds on it, because Go's base64 decoder ignores
carriage returns and newlines. -/
theorem C9_counterexample_newline :
    "\n".length % 4 = 1 ∧ DecodeSegment "\n" = Except.ok [] :=
  ⟨rfl, rfl⟩

/-- C1 (counter-evidence): the round trip already fails on a freshly
constructed token with empty claims — the claims segment `"e30"` has
length ≡ 3 (mod 4), `DecodeSegment` over-pads it, and `Parse` reports
`Malformed` instead of a valid token with a nil error. -/
theorem C1_roundtrip_fails_on_empty_claims :
    SignedString (New mOK) [] =
        Except.ok "eyJhbGciOiJIUzI1NiIsInR5cCI6IkpXVCJ9.e30.sig" ∧
      (Parse regHS 0 "eyJhbGciOiJIUzI1NiIsInR5cCI6IkpXVCJ9.e30.sig" kfEmpty).1.map
          Token.Valid = some false ∧
      (Parse regHS 0 "eyJhbGciOiJIUzI1NiIsInR5cCI6IkpXVCJ9.e30.sig" kfEmpty).2.map
          ValidationError.Malformed = some true :=
  ⟨rfl, rfl, rfl⟩

/-- C3 (counter-evidence): a fully successful parse (nil error) leaves
the token's `Signature` field at its zero value `""`, although the
signature segment `"c2ln"` decodes to the non-empty bytes of `"sig"` —
`Parse` never assigns the field. -/
theorem C3_signature_left_empty :
    (Parse regHS 0 c3Token kfEmpty).2 = none ∧
      (Parse regHS 0 c3Token kfEmpty).1.map Token.Signature = some "" ∧
      DecodeSegment "c2ln" = Except.ok [115, 105, 103] :=
  ⟨rfl, rfl, rfl⟩

/-- C5: a token string that does not split on `.` into exactly three
segments makes `Parse` fail with `Malformed` and a `nil` token, with a
result that does not depend on the key-resolution callback (so the
callback is never consulted). -/
theorem C5_wrong_segment_count (reg : String → Option SigningMethod) (now : Int)
    (s : String) (keyFunc : Token → Except String (List Nat))
    (h : (splitOnDot s).length ≠ 3) :
    Parse reg now s keyFunc =
      (none,
       some { err := "Token contains an invalid number of segments", Malformed := true }) := by
  rcases hs : splitOnDot s with _ | ⟨a, _ | ⟨b, _ | ⟨c, _ | ⟨d, t⟩⟩⟩⟩
  · unfold Parse; rw [hs]
  · unfold Parse; rw [hs]
  · unfold Parse; rw [hs]
  · exact absurd (by rw [hs]; rfl) h
  · unfold Parse; rw [hs]

/-- C5 witness: the two-segment string `"a.b"`. -/
theorem C5_wrong_segment_count_witness :
    Parse (fun _ => none) 0 "a.b" (fun _ => Except.ok []) =
      (none,
       some { err := "Token contains an invalid number of segments", Malformed := true }) :=
  C5_wrong_segment_count (fun _ => none) 0 "a.b" (fun _ => Except.ok []) (by decide)

/-- Padded base64 decoding only succeeds on inputs (already stripped of
carriage returns and newlines) whose length is a multiple of four. -/
theorem b64decodeClean_length_mod :
    ∀ (l : List Char) (bs : List Nat), b64decodeClean l = some bs → l.length % 4 = 0
  | [], _, _ => rfl
  | [_], _, h => by simp [b64decodeClean] at h
  | [_, _], _, h => by simp [b64decodeClean] at h
  | [_, _, _], _, h => by simp [b64decodeClean] at h
  | c0 :: c1 :: c2 :: c3 :: rest, bs, h => by
    simp only [b64decodeClean] at h
    split at h
    · split at h
      · split at h
        · rename_i hpad
          obtain ⟨-, hrest⟩ := hpad
          subst hrest
          simp
        · exact absurd h (by simp)
      · split at h
        · split at h
          · split at h
            · rename_i hrest
              subst hrest
              simp
            · exact absurd h (by simp)
          · split at h
            · rename_i v3 hv3
              rw [Option.map_eq_some'] at h
              obtain ⟨bs', hbs', -⟩ := h
              have hm := b64decodeClean_length_mod rest bs' hbs'
              simp only [List.length_cons]
              omega
            · exact absurd h (by simp)
        · exact absurd h (by simp)
    · exact absurd h (by simp)

/-- C9 (amended): on inputs free of carriage returns and newlines, a
length ≡ 1 (mod 4) always makes `DecodeSegment` fail. -/
theorem C9_len_mod4_one_fails (s : String) (h1 : s.length % 4 = 1)
    (h2 : ∀ c ∈ s.toList, c ≠ '\n' ∧ c ≠ '\r') :
    DecodeSegment s = Except.error "illegal base64 data" := by
  obtain ⟨l⟩ := s
  have hlen : l.length % 4 = 1 := h1
  have hn2 : ¬((String.mk l).length % 4 = 2) := by
    show ¬(l.length % 4 = 2); omega
  have hn3 : ¬((String.mk l).length % 4 = 3) := by
    show ¬(l.length % 4 = 3); omega
  have hf : l.filter (fun c => !(c == '\n' || c == '\r')) = l := by
    apply List.filter_eq_self.mpr
    intro a ha
    have ha2 := h2 a ha
    simp only [Bool.not_eq_true', Bool.or_eq_false_iff, beq_eq_false_iff_ne]
    exact ha2
  simp only [DecodeSegment, goBase64URLDecode, if_neg hn2, if_neg hn3]
  show (match b64decodeClean ((String.mk l).toList.filter
      (fun c => !(c == '\n' || c == '\r'))) with
    | some bs => Except.ok bs
    | none => Except.error "illegal base64 data") = Except.error "illegal base64 data"
  have htl : (String.mk l).toList = l := rfl
  rw [htl, hf]
  cases hd : b64decodeClean l with
  | none => rfl
  | some bs =>
    have := b64decodeClean_length_mod l bs hd
    omega

/-- C9 amended witness: the single character `"A"`. -/
theorem C9_len_mod4_one_fails_witness :
    DecodeSegment "A" = Except.error "illegal base64 data" :=
  C9_len_mod4_one_fails "A" (by decide) (by decide)

/-- C6: a well-decoded three-segment token whose header has no string
`alg` entry makes `Parse` fail `Unverifiable` with the "unspecified"
message; the result does not depend on the registry or on the
key-resolution callback (so neither the callback nor any signature
verification is ever reached). -/
theorem C6_missing_alg_unverifiable (reg : String → Option SigningMethod) (now : Int)
    (s p0 p1 p2 : String) (kf : Token → Except String (List Nat))
    (hb cb : List Nat) (hdr clm : List (String × Jval))
    (hsplit : splitOnDot s = [p0, p1, p2])
    (hd0 : DecodeSegment p0 = Except.ok hb)
    (hj0 : jsonUnmarshalObj (bytesToStr hb) = Except.ok hdr)
    (hd1 : DecodeSegment p1 = Except.ok cb)
    (hj1 : jsonUnmarshalObj (bytesToStr cb) = Except.ok clm)
    (halg : algIsStr (lookupJ "alg" hdr) = false) :
    Parse reg now s kf =
      (some { Raw := s, Header := hdr, Claims := clm },
       some { err := "Signing method (alg) is unspecified.", Unverifiable := true }) := by
  unfold Parse
  rw [hsplit]
  simp only [hd0, hj0, hd1, hj1]
  rcases hl : lookupJ "alg" hdr with _ | v
  · rfl
  · cases v with
    | str a => rw [hl] at halg; simp [algIsStr] at halg
    | null => rfl
    | bool b => rfl
    | num n => rfl
    | arr xs => rfl
    | obj kvs => rfl

/-- C6 witness: header `\x7b"a":1\x7d` with no `alg`, against a registry
that resolves nothing and a callback that errors (neither is consulted). -/
theorem C6_missing_alg_unverifiable_witness :
    Parse (fun _ => none) 7 cNoAlgToken (fun _ => Except.error "no key") =
      (some { Raw := cNoAlgToken, Header := [("a", Jval.num 1)],
              Claims := [("a", Jval.num 1)] },
       some { err := "Signing method (alg) is unspecified.", Unverifiable := true }) :=
  C6_missing_alg_unverifiable (fun _ => none) 7 cNoAlgToken
    "eyJhIjoxfQ" "eyJhIjoxfQ" "c2ln" (fun _ => Except.error "no key")
    (strToBytes "\x7b\"a\":1\x7d") (strToBytes "\x7b\"a\":1\x7d")
    [("a", Jval.num 1)] [("a", Jval.num 1)]
    rfl rfl rfl rfl rfl rfl

/-- C4: a token with a numeric `exp` in the past and a signature that
fails verification yields an error with both `Expired` and
`SignatureInvalid` set — the temporal check accumulates instead of
returning early. -/
theorem C4_expired_and_invalid_signature (reg : String → Option SigningMethod)
    (now : Int) (s p0 p1 p2 a msg : String) (kf : Token → Except String (List Nat))
    (hb cb : List Nat) (hdr clm : List (String × Jval)) (m : SigningMethod)
    (key : List Nat) (ev : Int)
    (hsplit : splitOnDot s = [p0, p1, p2])
    (hd0 : DecodeSegment p0 = Except.ok hb)
    (hj0 : jsonUnmarshalObj (bytesToStr hb) = Except.ok hdr)
    (hd1 : DecodeSegment p1 = Except.ok cb)
    (hj1 : jsonUnmarshalObj (bytesToStr cb) = Except.ok clm)
    (halg : lookupJ "alg" hdr = some (Jval.str a))
    (hreg : reg a = some m)
    (hkf : kf { Raw := s, Header := hdr, Claims := clm, Method := some m } = Except.ok key)
    (hexp : lookupJ "exp" clm = some (Jval.num ev))
    (hpast : now > ev)
    (hver : m.Verify (p0 ++ "." ++ p1) p2 key = Except.error msg) :
    ∃ t verr, Parse reg now s kf = (some t, some verr) ∧
      verr.Expired = true ∧ verr.SignatureInvalid = true := by
  rcases hnbf : lookupJ "nbf" clm with _ | v
  · unfold Parse
    rw [hsplit]
    simp only [hd0, hj0, hd1, hj1, halg, hreg, hkf, hexp, hnbf, hver]
    rw [if_pos hpast]
    exact ⟨_, _, rfl, rfl, rfl⟩
  · cases v with
    | num nv =>
      by_cases hfut : now < nv
      · unfold Parse
        rw [hsplit]
        simp only [hd0, hj0, hd1, hj1, halg, hreg, hkf, hexp, hnbf, hver]
        rw [if_pos hpast, if_pos hfut]
        exact ⟨_, _, rfl, rfl, rfl⟩
      · unfold Parse
        rw [hsplit]
        simp only [hd0, hj0, hd1, hj1, halg, hreg, hkf, hexp, hnbf, hver]
        rw [if_pos hpast, if_neg hfut]
        exact ⟨_, _, rfl, rfl, rfl⟩
    | null =>
      unfold Parse
      rw [hsplit]
      simp only [hd0, hj0, hd1, hj1, halg, hreg, hkf, hexp, hnbf, hver]
      rw [if_pos hpast]
      exact ⟨_, _, rfl, rfl, rfl⟩
    | bool b =>
      unfold Parse
      rw [hsplit]
      simp only [hd0, hj0, hd1, hj1, halg, hreg, hkf, hexp, hnbf, hver]
      rw [if_pos hpast]
      exact ⟨_, _, rfl, rfl, rfl⟩
    | str st =>
      unfold Parse
      rw [hsplit]
      simp only [hd0, hj0, hd1, hj1, halg, hreg, hkf, hexp, hnbf, hver]
      rw [if_pos hpast]
      exact ⟨_, _, rfl, rfl, rfl⟩
    | arr xs =>
      unfold Parse
      rw [hsplit]
      simp only [hd0, hj0, hd1, hj1, halg, hreg, hkf, hexp, hnbf, hver]
      rw [if_pos hpast]
      exact ⟨_, _, rfl, rfl, rfl⟩
    | obj kvs =>
      unfold Parse
      rw [hsplit]
      simp only [hd0, hj0, hd1, hj1, halg, hreg, hkf, hexp, hnbf, hver]
      rw [if_pos hpast]
      exact ⟨_, _, rfl, rfl, rfl⟩

/-- C4 witness: claims `\x7b"exp":1\x7d` at time 100 with an
always-failing verifier. -/
theorem C4_expired_and_invalid_signature_witness :
    ∃ t verr, Parse regBad 100 cExpToken kfEmpty = (some t, some verr) ∧
      verr.Expired = true ∧ verr.SignatureInvalid = true :=
  C4_expired_and_invalid_signature regBad 100 cExpToken
    "eyJhbGciOiJIUzI1NiIsInR5cCI6IkpXVCJ9" "eyJleHAiOjF9" "c2ln" "HS256"
    "signature is invalid" kfEmpty
    (strToBytes "\x7b\"alg\":\"HS256\",\"typ\":\"JWT\"\x7d")
    (strToBytes "\x7b\"exp\":1\x7d")
    [("alg", Jval.str "HS256"), ("typ", Jval.str "JWT")]
    [("exp", Jval.num 1)] mBad [] 1
    rfl rfl rfl rfl rfl rfl rfl rfl rfl (by decide) rfl

/-- C10: when the expiry check fails and the signature check fails after
it, the later check overwrites the aggregated error's message, so the
returned error carries the signature-verification message while both
flags stay set (`nbf` absent isolates the two checks at issue). -/
theorem C10_last_failure_message_wins (reg : String → Option SigningMethod)
    (now : Int) (s p0 p1 p2 a msg : String) (kf : Token → Except String (List Nat))
    (hb cb : List Nat) (hdr clm : List (String × Jval)) (m : SigningMethod)
    (key : List Nat) (ev : Int)
    (hsplit : splitOnDot s = [p0, p1, p2])
    (hd0 : DecodeSegment p0 = Except.ok hb)
    (hj0 : jsonUnmarshalObj (bytesToStr hb) = Except.ok hdr)
    (hd1 : DecodeSegment p1 = Except.ok cb)
    (hj1 : jsonUnmarshalObj (bytesToStr cb) = Except.ok clm)
    (halg : lookupJ "alg" hdr = some (Jval.str a))
    (hreg : reg a = some m)
    (hkf : kf { Raw := s, Header := hdr, Claims := clm, Method := some m } = Except.ok key)
    (hexp : lookupJ "exp" clm = some (Jval.num ev))
    (hpast : now > ev)
    (hnbf : lookupJ "nbf" clm = none)
    (hver : m.Verify (p0 ++ "." ++ p1) p2 key = Except.error msg)
    (hmsg : msg ≠ "") :
    (Parse reg now s kf).2 =
        some { err := msg, Expired := true, SignatureInvalid := true } ∧
      (Parse reg now s kf).2.map ValidationError.Error = some msg := by
  unfold Parse
  rw [hsplit]
  simp only [hd0, hj0, hd1, hj1, halg, hreg, hkf, hexp, hnbf, hver]
  rw [if_pos hpast]
  refine ⟨rfl, ?_⟩
  show some (ValidationError.Error
    { err := msg, Expired := true, SignatureInvalid := true }) = some msg
  simp [ValidationError.Error, hmsg]

/-- C10 witness: same expired token, verifier message
`"signature is invalid"`. -/
theorem C10_last_failure_message_wins_witness :
    (Parse regBad 100 cExpToken kfEmpty).2 =
        some { err := "signature is invalid", Expired := true, SignatureInvalid := true } ∧
      (Parse regBad 100 cExpToken kfEmpty).2.map ValidationError.Error =
        some "signature is invalid" :=
  C10_last_failure_message_wins regBad 100 cExpToken
    "eyJhbGciOiJIUzI1NiIsInR5cCI6IkpXVCJ9" "eyJleHAiOjF9" "c2ln" "HS256"
    "signature is invalid" kfEmpty
    (strToBytes "\x7b\"alg\":\"HS256\",\"typ\":\"JWT\"\x7d")
    (strToBytes "\x7b\"exp\":1\x7d")
    [("alg", Jval.str "HS256"), ("typ", Jval.str "JWT")]
    [("exp", Jval.num 1)] mBad [] 1
    rfl rfl rfl rfl rfl rfl rfl rfl rfl (by decide) rfl rfl (by decide)

end Jwt
